import Mathlib

/-!
Shallow embedding of `src/gitfs.py` (a FUSE filesystem exposing the refs and
trees of a git repository read-only).

Modelling conventions:
* Python strings become `List Char`; `s.startswith(p)` becomes `pyStartswith s p`;
  `s.split(sep)` becomes `pySplit sep s`; slices become `take`/`drop`.
* Bytes content becomes `List Nat`.
* The backing repository (an external collaborator in the spec) is modelled as
  the `GitFS` structure: the normalized reference names (`refs`, as produced by
  the `refs` property of the Python class), a map from a reference name to the
  root tree of the commit it resolves to (`commitTree`), and the host stat of
  the repository directory (`repoStat`, the result of `os.lstat(repo.path)`).
* A Python function that can raise or return an error object is embedded as
  `Except PyErr _`: `PyErr.fuseRaised e` stands for `raise FuseOSError(e)`,
  `PyErr.fuseReturned e` for `return FuseOSError(e)` (the error object returned
  as a value, as `open` and `read` do), `PyErr.gitFSError` for
  `raise GitFS.GitFSError(...)`, and `PyErr.py e` for an uncaught Python
  exception (KeyError, TypeError, AttributeError, IndexError).
* `list(frozenset(xs))` is modelled as `List.dedup xs`: Python's iteration
  order over a frozenset is unspecified, and every property proved below about
  such a listing is order-agnostic (membership and duplicate-freeness only).
-/

/-- Python `s.startswith(pre)` on `List Char`. -/
def pyStartswith (s pre : List Char) : Bool := pre.isPrefixOf s

/-- Python `s.split(sep)` for a one-character separator: `"".split` is `[""]`,
and every occurrence of the separator starts a new (possibly empty) field. -/
def pySplit (sep : Char) : List Char → List (List Char)
  | [] => [[]]
  | c :: rest =>
    let ps := pySplit sep rest
    if c = sep then [] :: ps else (c :: ps.headD []) :: ps.tail

/-- A git object reachable from a commit: a blob with byte content, or a tree
with a list of entries `(name, filemode, object)`. -/
inductive GitObject : Type where
  | blob (data : List Nat) : GitObject
  | tree (entries : List (List Char × Nat × GitObject)) : GitObject

/-- A tree entry as pygit2 presents it: name, filemode, and the pointed-to
object (pygit2's `entry.to_object()` / `repo[entry.oid]`). -/
abbrev TreeEntry := List Char × Nat × GitObject

def TreeEntry.name (e : TreeEntry) : List Char := e.1

def TreeEntry.filemode (e : TreeEntry) : Nat := e.2.1

def TreeEntry.to_object (e : TreeEntry) : GitObject := e.2.2

/-- pygit2 `tree[name]` returning the entry when present (`none` models the
caught `KeyError` at use sites that catch it). -/
def treeGetItem (entries : List TreeEntry) (name : List Char) : Option TreeEntry :=
  entries.find? (fun e => e.1 = name)

/-- An uncaught Python exception. -/
inductive PyExn : Type where
  | keyError : PyExn
  | typeError : PyExn
  | attributeError : PyExn
  | indexError : PyExn
deriving DecidableEq, Repr

/-- How an operation of `gitfs.py` fails: a raised `FuseOSError`, a returned
`FuseOSError` object, a raised `GitFS.GitFSError`, or an uncaught exception. -/
inductive PyErr : Type where
  | fuseRaised (errno : Nat) : PyErr
  | fuseReturned (errno : Nat) : PyErr
  | gitFSError : PyErr
  | py (e : PyExn) : PyErr
deriving DecidableEq, Repr

def ENOENT : Nat := 2

def EACCES : Nat := 13

def O_RDONLY : Nat := 0

def S_IFDIR : Nat := 0o040000

/-- `git_tree_find(tree, path)` from `gitfs.py`: split the path on `/`, advance
through subtrees with `reduce` for every part but the last (where `t[part]` on
a tree missing `part` raises `KeyError` and on a blob raises `TypeError`, both
uncaught because only the final lookup sits in the `try`), then look the last
part up in the result, catching `TypeError` and `KeyError` there as absence. -/
def git_tree_find (tree : List TreeEntry) (path : List Char) :
    Except PyExn (Option TreeEntry) := do
  let parts := pySplit '/' path
  let t ← parts.dropLast.foldlM
    (fun t part =>
      match t with
      | none => Except.ok none
      | some (GitObject.blob _) => Except.error PyExn.typeError
      | some (GitObject.tree entries) =>
        match treeGetItem entries part with
        | none => Except.error PyExn.keyError
        | some e => Except.ok (some e.to_object))
    (some (GitObject.tree tree))
  match t with
  | some (GitObject.tree entries) => Except.ok (treeGetItem entries (parts.getLastD []))
  | _ => Except.ok none

/-- The `Stat` namedtuple of `gitfs.py`. -/
structure Stat : Type where
  st_mode : Nat
  st_ino : Nat
  st_dev : Nat
  st_nlink : Nat
  st_uid : Nat
  st_gid : Nat
  st_size : Nat
  st_atime : Nat
  st_mtime : Nat
  st_ctime : Nat
deriving DecidableEq, Repr

/-- `copy_stat(st, **kwargs)` from `gitfs.py`, with the two keyword arguments
the source ever passes (`st_size`, `st_mode`) made explicit options: apply the
overrides, then force `st_ino = 0` and clear the write bits of `st_mode`
(`st_mode & ~0o222`; on nonnegative Python ints that is `Nat.ldiff`). -/
def copy_stat (st : Stat) (size? mode? : Option Nat) : Stat :=
  let r := { st with
    st_size := size?.getD st.st_size
    st_mode := mode?.getD st.st_mode }
  { r with st_ino := 0, st_mode := Nat.ldiff r.st_mode 0o222 }

/-- The filesystem state an operation of `gitfs.py` runs against: the reference
names of the `refs` property (normalized, `'refs'` stripped, so each is
`/heads/master`-like), the root tree of the commit each reference resolves to,
and the host stat of the repository directory. -/
structure GitFS : Type where
  refs : List (List Char)
  commitTree : List Char → List TreeEntry
  repoStat : Stat

/-- `GitFS.get_child_refs(path)`: the refs `r` with `r.startswith(path)`. -/
def GitFS.get_child_refs (fs : GitFS) (path : List Char) : List (List Char) :=
  fs.refs.filter (fun r => pyStartswith r path)

/-- `GitFS.get_parent_ref(path)`: the refs `r` with `path.startswith(r + '/')`;
raises `FuseOSError(ENOENT)` unless exactly one matches. -/
def GitFS.get_parent_ref (fs : GitFS) (path : List Char) : Except PyErr (List Char) :=
  match fs.refs.filter (fun r => pyStartswith path (r ++ ['/'])) with
  | [r] => Except.ok r
  | _ => Except.error (PyErr.fuseRaised ENOENT)

/-- `GitFS.getattr(path)` from `gitfs.py`. -/
def GitFS.getattr (fs : GitFS) (path : List Char) : Except PyErr Stat :=
  if pyStartswith path ("/.".toList) then Except.error (PyErr.fuseRaised ENOENT)
  else
    let default_stat := copy_stat fs.repoStat none none
    if path = "/".toList ∨ fs.get_child_refs path ≠ [] then Except.ok default_stat
    else
      match fs.get_parent_ref path with
      | Except.error e => Except.error e
      | Except.ok parent =>
        match git_tree_find (fs.commitTree parent) (path.drop (parent.length + 1)) with
        | Except.error e => Except.error (PyErr.py e)
        | Except.ok none => Except.error (PyErr.fuseRaised ENOENT)
        | Except.ok (some entry) =>
          if entry.filemode &&& S_IFDIR = S_IFDIR then Except.ok default_stat
          else
            match entry.to_object with
            | GitObject.blob d =>
              Except.ok (copy_stat fs.repoStat (some d.length) (some entry.filemode))
            | GitObject.tree _ => Except.error (PyErr.py PyExn.attributeError)

/-- The root-directory branch of `GitFS.readdir`:
`parts = [r.split('/') for r in refs]`, then
`[p[1] for p in parts if p]` where `p[1]` on a too-short list raises
`IndexError` (uncaught); the caller wraps the result in `list(frozenset(_))`. -/
def rootFirstParts (refs : List (List Char)) : Except PyErr (List (List Char)) :=
  ((refs.map (pySplit '/')).filter (fun p => p ≠ [])).mapM
    (fun p =>
      match p.get? 1 with
      | some x => Except.ok x
      | none => Except.error (PyErr.py PyExn.indexError))

/-- `GitFS.readdir(path, fh)` from `gitfs.py`. -/
def GitFS.readdir (fs : GitFS) (path : List Char) : Except PyErr (List (List Char)) :=
  let refs := fs.refs
  if path = "/".toList then
    match rootFirstParts refs with
    | Except.error e => Except.error e
    | Except.ok first_parts => Except.ok first_parts.dedup
  else
    let matching := refs.filter (fun r => pyStartswith r (path ++ ['/']))
    if matching ≠ [] then
      let path_len := path.length + 1
      Except.ok (((matching.filter (fun r => path_len < r.length)).map
        (fun r => (r.drop path_len).takeWhile (fun c => c ≠ '/'))).dedup)
    else if path ∈ refs then
      Except.ok ((fs.commitTree path).map (fun e => e.1))
    else
      match refs.filter (fun r => pyStartswith path (r ++ ['/'])) with
      | [ref_name] =>
        let file_path := path.drop (ref_name.length + 1)
        match git_tree_find (fs.commitTree ref_name) file_path with
        | Except.error e => Except.error (PyErr.py e)
        | Except.ok none => Except.error (PyErr.fuseRaised ENOENT)
        | Except.ok (some entry) =>
          if entry.filemode &&& S_IFDIR = S_IFDIR then
            match entry.to_object with
            | GitObject.tree entries => Except.ok (entries.map (fun e => e.1))
            | GitObject.blob _ => Except.error (PyErr.py PyExn.typeError)
          else Except.ok []
      | [] => Except.ok []
      | _ :: _ :: _ => Except.error PyErr.gitFSError

/-- `GitFS.open(path, flags)` from `gitfs.py` (named `open_` because `open` is
a Lean keyword): note the source *returns* its `FuseOSError` objects, and its
read-only test compares `flags & os.O_RDONLY` with `os.O_RDONLY` where
`os.O_RDONLY = 0`. -/
def GitFS.open_ (fs : GitFS) (path : List Char) (flags : Nat) : Except PyErr Nat :=
  if pyStartswith path ("/.".toList) then Except.error (PyErr.fuseReturned ENOENT)
  else if flags &&& O_RDONLY ≠ O_RDONLY then Except.error (PyErr.fuseReturned EACCES)
  else Except.ok 0

/-- `GitFS.read(path, size, offset, fh)` from `gitfs.py`. -/
def GitFS.read (fs : GitFS) (path : List Char) (size offset : Nat) :
    Except PyErr (List Nat) :=
  if pyStartswith path ("/.".toList) then Except.error (PyErr.fuseReturned ENOENT)
  else
    match fs.refs.filter (fun r => pyStartswith path (r ++ ['/'])) with
    | [ref_name] =>
      let file_path := path.drop (ref_name.length + 1)
      match git_tree_find (fs.commitTree ref_name) file_path with
      | Except.error e => Except.error (PyErr.py e)
      | Except.ok none => Except.error (PyErr.fuseReturned ENOENT)
      | Except.ok (some entry) =>
        match entry.to_object with
        | GitObject.blob d =>
          if offset = 0 ∧ d.length ≤ size then Except.ok d
          else Except.ok ((d.take (offset + size)).drop offset)
        | GitObject.tree _ => Except.error (PyErr.py PyExn.attributeError)
    | [] => Except.error (PyErr.fuseReturned ENOENT)
    | _ :: _ :: _ => Except.error PyErr.gitFSError

/-- Variant of `GitFS.read`, written to compare with it: the offset-zero
fast-path branch of the blob case is removed, and the general slice
`data[offset : offset + size]` is always taken. -/
def GitFS.readNoFast (fs : GitFS) (path : List Char) (size offset : Nat) :
    Except PyErr (List Nat) :=
  if pyStartswith path ("/.".toList) then Except.error (PyErr.fuseReturned ENOENT)
  else
    match fs.refs.filter (fun r => pyStartswith path (r ++ ['/'])) with
    | [ref_name] =>
      let file_path := path.drop (ref_name.length + 1)
      match git_tree_find (fs.commitTree ref_name) file_path with
      | Except.error e => Except.error (PyErr.py e)
      | Except.ok none => Except.error (PyErr.fuseReturned ENOENT)
      | Except.ok (some entry) =>
        match entry.to_object with
        | GitObject.blob d => Except.ok ((d.take (offset + size)).drop offset)
        | GitObject.tree _ => Except.error (PyErr.py PyExn.attributeError)
    | [] => Except.error (PyErr.fuseReturned ENOENT)
    | _ :: _ :: _ => Except.error PyErr.gitFSError

/-! Concrete repository states used by counterexamples and witnesses. -/

/-- A host stat for the repository directory, with write bits set and a
nonzero inode, so that the stripping done by `copy_stat` is observable. -/
def stat0 : Stat :=
  { st_mode := 0o40755, st_ino := 7, st_dev := 1, st_nlink := 2, st_uid := 1000,
    st_gid := 1000, st_size := 4096, st_atime := 10, st_mtime := 20, st_ctime := 30 }

/-- A repository whose reference `/heads/master` points at a commit whose root
tree holds the single blob `README` (content "Hi", mode `0o100644`). -/
def fsMaster : GitFS :=
  { refs := ["/heads/master".toList]
    commitTree := fun r =>
      if r = "/heads/master".toList then
        [("README".toList, 0o100644, GitObject.blob [72, 105])]
      else []
    repoStat := stat0 }

/-- A repository where reference `/a` is a path-prefix of reference `/a/b`,
the ambiguous configuration of the spec. -/
def fsAmbig : GitFS :=
  { refs := ["/a".toList, "/a/b".toList]
    commitTree := fun _ => []
    repoStat := stat0 }

/-- A repository with several references sharing first segments. -/
def fsMany : GitFS :=
  { refs := ["/heads/main".toList, "/heads/dev".toList, "/tags/v1".toList]
    commitTree := fun _ => []
    repoStat := stat0 }

example : pyStartswith ("/.git".toList) ("/.".toList) = true := by decide

example : pySplit '/' ("/a/b".toList) = [[], ['a'], ['b']] := by decide

example : fsAmbig.getattr ("/a/b/c".toList) = Except.error (PyErr.fuseRaised ENOENT) := rfl

example : fsAmbig.readdir ("/a/b/c".toList) = Except.error PyErr.gitFSError := rfl

example : fsAmbig.read ("/a/b/c".toList) 10 0 = Except.error PyErr.gitFSError := rfl

example : fsMaster.getattr ("/heads/ma".toList) = Except.ok (copy_stat stat0 none none) := rfl

example : fsMaster.readdir ("/heads/ma".toList) = Except.ok [] := rfl

example : git_tree_find [] ("a/b".toList) = Except.error PyExn.keyError := rfl

example : fsMaster.read ("/heads/master/README".toList) 10 0 = Except.ok [72, 105] := rfl

example : fsMaster.read ("/heads/master/README".toList) 10 2 = Except.ok [] := rfl

example : fsMaster.readdir ("/heads/master/README".toList) = Except.ok [] := rfl

example : fsMaster.readdir ("/nope/x".toList) = Except.ok [] := rfl

example : fsMaster.readdir ("/.git".toList) = Except.ok [] := rfl

example : fsMaster.open_ ("/nope".toList) 1 = Except.ok 0 := rfl

example : fsMaster.getattr ("/heads/master/README".toList)
    = Except.ok (copy_stat stat0 (some 2) (some 0o100644)) := rfl

example : fsMany.readdir ("/".toList)
    = Except.ok ["heads".toList, "tags".toList] := rfl

/-! Helper lemmas. -/

theorem ldiff_land_self (m k : Nat) : Nat.ldiff m k &&& k = 0 := by
  apply Nat.eq_of_testBit_eq
  intro i
  rw [Nat.testBit_land, Nat.testBit_ldiff, Nat.zero_testBit]
  cases hk : k.testBit i <;> simp [hk]

theorem copy_stat_st_ino (st : Stat) (a b : Option Nat) : (copy_stat st a b).st_ino = 0 :=
  rfl

theorem copy_stat_write_cleared (st : Stat) (a b : Option Nat) :
    (copy_stat st a b).st_mode &&& 0o222 = 0 :=
  ldiff_land_self _ _

theorem pyStartswith_append_right {s p q : List Char}
    (h : pyStartswith s (p ++ q) = true) : pyStartswith s p = true := by
  induction p generalizing s with
  | nil => cases s <;> rfl
  | cons a as ih =>
    cases s with
    | nil => simp [pyStartswith, List.isPrefixOf] at h
    | cons b bs =>
      simp only [pyStartswith, List.cons_append, List.isPrefixOf,
        Bool.and_eq_true, beq_iff_eq] at h ⊢
      exact ⟨h.1, ih h.2⟩

theorem pyStartswith_self (p : List Char) : pyStartswith p p = true := by
  induction p with
  | nil => rfl
  | cons a as ih => simp only [pyStartswith, List.isPrefixOf] at ih ⊢; simp [ih]

theorem pySplit_ne_nil (sep : Char) (s : List Char) : pySplit sep s ≠ [] := by
  cases s with
  | nil => simp [pySplit]
  | cons c rest => simp only [pySplit]; split <;> simp

theorem headD_pySplit (sep : Char) (s : List Char) :
    (pySplit sep s).headD [] = s.takeWhile (fun c => c ≠ sep) := by
  induction s with
  | nil => rfl
  | cons c rest ih =>
    simp only [pySplit]
    by_cases h : c = sep
    · subst h; simp [List.takeWhile_cons]
    · rw [if_neg h, List.headD_cons, List.takeWhile_cons, if_pos (by simp [h]), ih]

theorem get?_one_pySplit (sep : Char) (t : List Char) :
    (pySplit sep (sep :: t)).get? 1 = some (t.takeWhile (fun c => c ≠ sep)) := by
  have hh := headD_pySplit sep t
  simp only [pySplit, if_pos rfl]
  cases hp : pySplit sep t with
  | nil => exact absurd hp (pySplit_ne_nil sep t)
  | cons a l => rw [hp] at hh; simpa using hh

theorem rootFirstParts_ok (refs : List (List Char))
    (h : ∀ r ∈ refs, r.head? = some '/') :
    rootFirstParts refs =
      Except.ok (refs.map (fun r => r.tail.takeWhile (fun c => c ≠ '/'))) := by
  induction refs with
  | nil => rfl
  | cons r rs ih =>
    have hr := h r (by simp)
    have hrest : ∀ x ∈ rs, x.head? = some '/' := fun x hx => h x (by simp [hx])
    obtain ⟨t, rfl⟩ : ∃ t, r = '/' :: t := by
      cases r with
      | nil => simp at hr
      | cons a l => simp at hr; exact ⟨l, by rw [hr]⟩
    have hne : pySplit '/' ('/' :: t) ≠ [] := pySplit_ne_nil _ _
    simp only [rootFirstParts, List.map_cons, List.filter_cons] at ih ⊢
    rw [if_pos (by simpa using hne)]
    rw [List.mapM_cons, get?_one_pySplit]
    rw [ih hrest]
    rfl

/-! Claim theorems. -/

/-- C6: every attribute record the attribute query returns — for the root,
namespace directories, reference directories, tree directories, and blob files
alike — has all write permission bits (owner, group, other: `0o222`) cleared in
its mode and its inode number equal to zero. -/
theorem C6_getattr_write_bits_and_ino (fs : GitFS) (path : List Char) (st : Stat)
    (h : fs.getattr path = Except.ok st) :
    st.st_ino = 0 ∧ st.st_mode &&& 0o222 = 0 := by
  have hcs : ∀ (s : Stat) (a b : Option Nat), copy_stat s a b = st →
      st.st_ino = 0 ∧ st.st_mode &&& 0o222 = 0 := by
    rintro s a b rfl
    exact ⟨copy_stat_st_ino s a b, copy_stat_write_cleared s a b⟩
  unfold GitFS.getattr at h
  repeat' split at h
  all_goals first
    | exact Except.noConfusion h
    | { injection h with h; exact hcs _ _ _ h }

/-- C6 witness: the attribute record of the root directory of `fsMaster`. -/
theorem C6_witness :
    (copy_stat stat0 none none).st_ino = 0
    ∧ (copy_stat stat0 none none).st_mode &&& 0o222 = 0 :=
  C6_getattr_write_bits_and_ino fsMaster ("/".toList) (copy_stat stat0 none none) rfl

/-- C9: for every reference set (whose names are normalized, i.e. begin with
`/`), listing the root directory succeeds and returns exactly the set of first
path segments of all current reference names, with no duplicate names in the
result, regardless of how many references share a first segment. -/
theorem C9_readdir_root (fs : GitFS) (h : ∀ r ∈ fs.refs, r.head? = some '/') :
    ∃ L, fs.readdir ("/".toList) = Except.ok L ∧ L.Nodup ∧
      ∀ s, s ∈ L ↔ s ∈ fs.refs.map (fun r => r.tail.takeWhile (fun c => c ≠ '/')) := by
  refine ⟨(fs.refs.map (fun r => r.tail.takeWhile (fun c => c ≠ '/'))).dedup, ?_,
    List.nodup_dedup _, fun s => List.mem_dedup⟩
  unfold GitFS.readdir
  rw [if_pos rfl, rootFirstParts_ok fs.refs h]

/-- C9 witness: `fsMany` has refs `/heads/main`, `/heads/dev`, `/tags/v1`. -/
theorem C9_witness :
    ∃ L, fsMany.readdir ("/".toList) = Except.ok L ∧ L.Nodup ∧
      ∀ s, s ∈ L ↔ s ∈ fsMany.refs.map (fun r => r.tail.takeWhile (fun c => c ≠ '/')) :=
  C9_readdir_root fsMany (by decide)

/-- C2, code evaluated at the failing input: with the single reference
`/heads/master`, no reference's name starts with `/heads/ma` followed by `/`
(first conjunct), yet `getattr` classifies `/heads/ma` as a directory and
returns the synthesized directory attributes (second conjunct) instead of
NotFound, because `get_child_refs` tests `r.startswith(path)` without the
segment-boundary slash. -/
theorem C2_getattr_midsegment_prefix :
    fsMaster.refs.filter (fun r => pyStartswith r ("/heads/ma/".toList)) = []
    ∧ fsMaster.getattr ("/heads/ma".toList) = Except.ok (copy_stat stat0 none none) :=
  ⟨rfl, rfl⟩

/-- C3, code evaluated at the failing inputs: `git_tree_find` is not total.
On an empty tree and path `a/b` the intermediate lookup of `a` raises an
uncaught `KeyError` (only the final lookup sits inside the `try`), and when an
intermediate segment resolves to a blob before the last position (`a` a blob,
path `a/b/c`) the subscript on a blob raises an uncaught `TypeError`, in both
cases instead of the absence the claim requires. -/
theorem C3_git_tree_find_raises :
    git_tree_find [] ("a/b".toList) = Except.error PyExn.keyError
    ∧ git_tree_find [("a".toList, 0o100644, GitObject.blob [])] ("a/b/c".toList)
      = Except.error PyExn.typeError :=
  ⟨rfl, rfl⟩

/-- C7, code evaluated at the failing input: `open` with `flags = 1`
(`O_WRONLY`) on the path `/nope`, which does not resolve (second conjunct shows
`getattr` reports NotFound for it), succeeds with handle `0`: the read-only
test `flags & O_RDONLY != O_RDONLY` is vacuous because `O_RDONLY = 0`, and
`open` never consults the references or trees at all. -/
theorem C7_open_accepts_everything :
    fsMaster.open_ ("/nope".toList) 1 = Except.ok 0
    ∧ fsMaster.getattr ("/nope".toList) = Except.error (PyErr.fuseRaised ENOENT) :=
  ⟨rfl, rfl⟩

/-- C4: for every path resolving (under a unique slash-terminated reference
prefix) to a blob with content `d`, and every offset and size, `read` returns
the byte sub-range `[offset, offset + size)` of the content clamped to the
content's bounds; in particular a read at offset 0 with `size ≥ |d|` returns
exactly the full content, and a read at offset `|d|` returns the empty byte
sequence for any requested size — never an error. -/
theorem C4_read_clamped (fs : GitFS) (path r nm : List Char) (fm : Nat) (d : List Nat)
    (hdot : pyStartswith path ("/.".toList) = false)
    (hm : fs.refs.filter (fun x => pyStartswith path (x ++ ['/'])) = [r])
    (hf : git_tree_find (fs.commitTree r) (path.drop (r.length + 1))
      = Except.ok (some (nm, fm, GitObject.blob d))) :
    (∀ size offset, fs.read path size offset = Except.ok ((d.drop offset).take size))
    ∧ (∀ size, d.length ≤ size → fs.read path size 0 = Except.ok d)
    ∧ (∀ size, fs.read path size d.length = Except.ok []) := by
  have main : ∀ size offset,
      fs.read path size offset = Except.ok ((d.drop offset).take size) := by
    intro size offset
    unfold GitFS.read
    simp only [hdot, Bool.false_eq_true, if_false, hm, hf, TreeEntry.to_object]
    split_ifs with hc
    · obtain ⟨h0, hle⟩ := hc
      subst h0
      simp [List.take_of_length_le hle]
    · rw [List.drop_take, Nat.add_sub_cancel_left]
  refine ⟨main, fun size hle => ?_, fun size => ?_⟩
  · rw [main size 0, List.drop_zero, List.take_of_length_le hle]
  · rw [main size d.length, List.drop_length, List.take_nil]

/-- C4 witness: reading the 2-byte blob `/heads/master/README` of `fsMaster`
in full at offset 0, and past its end at offset 2. -/
theorem C4_witness :
    fsMaster.read ("/heads/master/README".toList) 2 0 = Except.ok [72, 105]
    ∧ fsMaster.read ("/heads/master/README".toList) 5 2 = Except.ok [] := by
  have h := C4_read_clamped fsMaster ("/heads/master/README".toList)
    ("/heads/master".toList) ("README".toList) 0o100644 [72, 105] rfl rfl rfl
  exact ⟨h.2.1 2 (by decide), h.2.2 5⟩

/-- C10: the offset-zero fast-path branch of `read` (taken when `offset = 0`
and the blob's length is at most `size`, returning the whole content) is
extensionally equal to the general slice branch: `read` and `readNoFast`, the
variant with the special case eliminated, agree on every input. -/
theorem C10_read_eq_readNoFast (fs : GitFS) (path : List Char) (size offset : Nat) :
    fs.read path size offset = fs.readNoFast path size offset := by
  unfold GitFS.read GitFS.readNoFast
  split
  · rfl
  · split <;> try rfl
    dsimp only
    split <;> try rfl
    split <;> try rfl
    split_ifs with hc
    · obtain ⟨h0, hle⟩ := hc
      subst h0
      simp [List.take_of_length_le hle]
    · rfl

/-- C1 counterexample: in `fsAmbig` (refs `/a` and `/a/b`), the path `/a/b/c`
lies strictly inside a reference's tree and two reference names are
slash-terminated prefixes of it (first conjunct), yet the attribute query
fails with the NotFound errno — not with a distinct ambiguity error. -/
theorem C1_counterexample :
    2 ≤ (fsAmbig.refs.filter
      (fun r => pyStartswith ("/a/b/c".toList) (r ++ ['/']))).length
    ∧ fsAmbig.getattr ("/a/b/c".toList) = Except.error (PyErr.fuseRaised ENOENT) :=
  ⟨by decide, rfl⟩

/-- C1 amended: for every path with more than one slash-terminated reference
prefix that is not itself a string prefix of any reference name (and is not
hidden and not the root), directory listing and read fail with the distinct
duplicate-refs error (`GitFSError`), but the attribute query fails with plain
NotFound (`ENOENT`), because `get_parent_ref` folds the ambiguous case into
its not-found branch. -/
theorem C1_ambiguous_prefix_ops (fs : GitFS) (path : List Char)
    (hdot : pyStartswith path ("/.".toList) = false)
    (hroot : path ≠ "/".toList)
    (hchild : fs.get_child_refs path = [])
    (hamb : 2 ≤ (fs.refs.filter (fun r => pyStartswith path (r ++ ['/']))).length) :
    fs.readdir path = Except.error PyErr.gitFSError
    ∧ (∀ size offset, fs.read path size offset = Except.error PyErr.gitFSError)
    ∧ fs.getattr path = Except.error (PyErr.fuseRaised ENOENT) := by
  have hnp : ∀ r ∈ fs.refs, ¬ pyStartswith r path = true := by
    rw [GitFS.get_child_refs, List.filter_eq_nil_iff] at hchild
    exact hchild
  have hm1 : fs.refs.filter (fun r => pyStartswith r (path ++ ['/'])) = [] := by
    rw [List.filter_eq_nil_iff]
    exact fun r hr hcontr => hnp r hr (pyStartswith_append_right hcontr)
  have hmem : path ∉ fs.refs := fun hmem => hnp path hmem (pyStartswith_self path)
  rcases h2 : fs.refs.filter (fun r => pyStartswith path (r ++ ['/'])) with
    _ | ⟨a, _ | ⟨b, t⟩⟩
  · rw [h2] at hamb; simp at hamb
  · rw [h2] at hamb; simp at hamb
  refine ⟨?_, fun size offset => ?_, ?_⟩
  · simp only [GitFS.readdir, hm1, h2, if_neg hroot]
    simp [hmem]
  · simp only [GitFS.read, hdot, Bool.false_eq_true, if_false, h2]
  · have hroot' : path ≠ ['/'] := by simpa using hroot
    simp only [GitFS.getattr, GitFS.get_parent_ref, hdot, Bool.false_eq_true, if_false,
      hchild, h2]
    simp [hroot']

/-- C1 witness for the amended claim, at `fsAmbig` and path `/a/b/c`. -/
theorem C1_witness :
    fsAmbig.readdir ("/a/b/c".toList) = Except.error PyErr.gitFSError
    ∧ fsAmbig.read ("/a/b/c".toList) 5 0 = Except.error PyErr.gitFSError
    ∧ fsAmbig.getattr ("/a/b/c".toList) = Except.error (PyErr.fuseRaised ENOENT) := by
  have h := C1_ambiguous_prefix_ops fsAmbig ("/a/b/c".toList) rfl (by decide) rfl
    (by decide)
  exact ⟨h.1, h.2.1 5 0, h.2.2⟩

/-- C5 counterexample: the directory listing of the dot-initial path `/.git`
returns an empty list of names instead of failing with NotFound — `readdir`
has no dot-segment check at all. -/
theorem C5_counterexample : fsMaster.readdir ("/.git".toList) = Except.ok [] := rfl

/-- C5 amended: for every path whose first segment begins with a dot, the
attribute query raises NotFound and `open` and `read` return the NotFound
error object, regardless of the reference set; the directory listing, however,
performs no dot check and returns a (here empty, since no reference relates to
the path) list of names instead of failing. -/
theorem C5_dot_paths (fs : GitFS) (path : List Char)
    (hdot : pyStartswith path ("/.".toList) = true)
    (h1 : fs.refs.filter (fun r => pyStartswith r (path ++ ['/'])) = [])
    (h2 : path ∉ fs.refs)
    (h3 : fs.refs.filter (fun r => pyStartswith path (r ++ ['/'])) = []) :
    fs.getattr path = Except.error (PyErr.fuseRaised ENOENT)
    ∧ (∀ flags, fs.open_ path flags = Except.error (PyErr.fuseReturned ENOENT))
    ∧ (∀ size offset, fs.read path size offset = Except.error (PyErr.fuseReturned ENOENT))
    ∧ fs.readdir path = Except.ok [] := by
  have hroot : path ≠ "/".toList := by
    intro hh; rw [hh] at hdot; exact absurd hdot (by decide)
  refine ⟨?_, fun flags => ?_, fun size offset => ?_, ?_⟩
  · unfold GitFS.getattr; rw [if_pos hdot]
  · unfold GitFS.open_; rw [if_pos hdot]
  · unfold GitFS.read; rw [if_pos hdot]
  · simp only [GitFS.readdir, h1, h3, if_neg hroot]
    simp [h2]

/-- C5 witness for the amended claim, at `fsMaster` and path `/.git`. -/
theorem C5_witness :
    fsMaster.getattr ("/.git".toList) = Except.error (PyErr.fuseRaised ENOENT)
    ∧ fsMaster.open_ ("/.git".toList) 0 = Except.error (PyErr.fuseReturned ENOENT)
    ∧ fsMaster.read ("/.git".toList) 5 0 = Except.error (PyErr.fuseReturned ENOENT)
    ∧ fsMaster.readdir ("/.git".toList) = Except.ok [] := by
  have h := C5_dot_paths fsMaster ("/.git".toList) rfl rfl (by decide) rfl
  exact ⟨h.1, h.2.1 0, h.2.2.1 5 0, h.2.2.2⟩

/-- C8 counterexample: in `fsMaster` the path `/heads/master/README` resolves
to a blob entry under the unique reference `/heads/master` (first conjunct),
yet `readdir` returns an empty list rather than failing with NotFound (second
conjunct); likewise a path related to no reference at all, `/nope/x`, is
listed as empty instead of failing (third conjunct). -/
theorem C8_counterexample :
    git_tree_find (fsMaster.commitTree ("/heads/master".toList)) ("README".toList)
      = Except.ok (some ("README".toList, 0o100644, GitObject.blob [72, 105]))
    ∧ fsMaster.readdir ("/heads/master/README".toList) = Except.ok []
    ∧ fsMaster.readdir ("/nope/x".toList) = Except.ok [] :=
  ⟨rfl, rfl, rfl⟩

/-- C8 amended: the directory listing returns an empty list — it does not fail
with NotFound — both for a path inside a unique reference whose relative path
resolves to a file (blob) entry, and for a path that stands in no relation to
any reference (no refs strictly under it, not itself a ref, no ref a
slash-terminated prefix of it). -/
theorem C8_readdir_empty_not_enoent (fs : GitFS) :
    (∀ path r nm fm d, path ≠ "/".toList →
      fs.refs.filter (fun x => pyStartswith x (path ++ ['/'])) = [] →
      path ∉ fs.refs →
      fs.refs.filter (fun x => pyStartswith path (x ++ ['/'])) = [r] →
      git_tree_find (fs.commitTree r) (path.drop (r.length + 1))
        = Except.ok (some (nm, fm, GitObject.blob d)) →
      fm &&& S_IFDIR ≠ S_IFDIR →
      fs.readdir path = Except.ok [])
    ∧ (∀ path, path ≠ "/".toList →
      fs.refs.filter (fun x => pyStartswith x (path ++ ['/'])) = [] →
      path ∉ fs.refs →
      fs.refs.filter (fun x => pyStartswith path (x ++ ['/'])) = [] →
      fs.readdir path = Except.ok []) := by
  constructor
  · intro path r nm fm d hroot h1 h2 h3 hf hmode
    simp only [GitFS.readdir, h1, h3, hf, if_neg hroot, TreeEntry.filemode,
      TreeEntry.to_object]
    simp [h2, hmode]
  · intro path hroot h1 h2 h3
    simp only [GitFS.readdir, h1, h3, if_neg hroot]
    simp [h2]

/-- C8 witness for the amended claim: the blob path `/heads/master/README` and
the unrelated path `/zzz/x` in `fsMaster`. -/
theorem C8_witness :
    fsMaster.readdir ("/heads/master/README".toList) = Except.ok []
    ∧ fsMaster.readdir ("/zzz/x".toList) = Except.ok [] := by
  have h := C8_readdir_empty_not_enoent fsMaster
  exact ⟨h.1 ("/heads/master/README".toList) ("/heads/master".toList)
      ("README".toList) 0o100644 [72, 105] (by decide) rfl (by decide) rfl rfl
      (by decide),
    h.2 ("/zzz/x".toList) (by decide) rfl (by decide) rfl⟩
